import Mathlib

/-!
Verification of the Time-Entry-Tool upload pipeline (src/Time_Entry/app.py).

The program reads a monthly "missing time" spreadsheet and a roster
spreadsheet, detects header rows by fuzzy substring matching, builds
normalized roster lookup sets, and filters the monthly data rows against
them while carrying a "current level" forward.

Embedding notes:
* A spreadsheet cell value is `Option CellVal`: `none` models a Python
  `None`/absent cell, `CellVal.str` a string, `CellVal.num` a number
  (modelled as `Int`; no claim depends on float formatting).
* `pyxlsb`/`openpyxl` yield rows padded to the sheet width, so row indexing
  is modelled with `List.getD _ none` (out-of-range behaves as absent).
* Python `(cell.v or '').strip()` raises `AttributeError` on a truthy
  non-string value; this is modelled by `coerceTrim` returning `Except`.
  The scans that evaluate this expression (`findHeader`,
  `findRosterHeader`) therefore return an `exn` outcome when a scanned
  row holds such a value.
* Python's `str.strip`/`str.lower` are modelled by `pyStrip` (removes
  ASCII whitespace at both ends) and `pyLower` (character-wise
  lowercasing); the substring test `a in b` by `hasSub`.
-/

namespace TimeEntry

/-- A non-absent spreadsheet cell value: a string or a number. -/
inductive CellVal where
  | str (s : String)
  | num (n : Int)
deriving DecidableEq, Repr

/-- A cell: `none` is Python `None` / an absent cell. -/
abbrev Cell := Option CellVal

/-- A sheet row: the list of its cell values. -/
abbrev Row := List Cell

/-- Python truthiness of a cell value: `''` and `0` are falsy. -/
def cvTruthy : CellVal → Bool
  | .str s => !s.toList.isEmpty
  | .num n => n != 0

/-- Whitespace as stripped by Python `str.strip()` (ASCII part). -/
def isSpace (c : Char) : Bool :=
  c == ' ' || c == '\t' || c == '\n' || c == '\r' || c == '\x0b' || c == '\x0c'

/-- Python `s.strip()`: remove whitespace from both ends. -/
def pyStrip (s : String) : String :=
  String.mk (((s.toList.dropWhile isSpace).reverse.dropWhile isSpace).reverse)

/-- Python `s.lower()` (character-wise). -/
def pyLower (s : String) : String := String.mk (s.toList.map Char.toLower)

/-- Python truthiness of a cell (`None` is falsy). -/
def cellTruthy : Cell → Bool
  | none => false
  | some v => cvTruthy v

/-- Python `str(v)` for a non-None cell value. -/
def pyStr : CellVal → String
  | .str s => s
  | .num n => toString n

/-- Python `str(c)` of a cell (`str(None) = "None"`). -/
def pyStrOpt : Cell → String
  | none => "None"
  | some v => pyStr v

/-- Python `str(v).strip().lower()`: the normalization applied to roster
values and monthly email values. -/
def pyNorm (v : CellVal) : String := pyLower (pyStrip (pyStr v))

/-- Is `n` a prefix of `h` (over character lists)? -/
def listIsPre : List Char → List Char → Bool
  | [], _ => true
  | _ :: _, [] => false
  | a :: as, b :: bs => a == b && listIsPre as bs

/-- Does the needle occur inside the haystack (character lists)? -/
def subAt : List Char → List Char → Bool
  | n, [] => n.isEmpty
  | n, c :: rest => listIsPre n (c :: rest) || subAt n rest

/-- Python `needle in hay` substring containment. -/
def hasSub (hay needle : String) : Bool := subAt needle.toList hay.toList

/-- Python `(cell.v or '').strip()`: `None` and falsy values coerce to
`''`, strings are stripped, truthy non-strings raise (`.error`). -/
def coerceTrim : Cell → Except Unit String
  | none => .ok ""
  | some (.str s) => .ok (pyStrip s)
  | some (.num n) => if n == 0 then .ok "" else .error ()

/-- Python `[(cell.v or '').strip() for cell in row]`, propagating the
exception when some cell is a truthy non-string. -/
def rowVals : Row → Except Unit (List String)
  | [] => .ok []
  | c :: rest =>
    match coerceTrim c with
    | .error e => .error e
    | .ok s =>
      match rowVals rest with
      | .error e => .error e
      | .ok ss => .ok (s :: ss)

/-- Header detector for the Level column: `'level' in v.lower()`. -/
def detLevel (v : String) : Bool := hasSub (pyLower v) "level"

/-- Header detector for the EmployeeInfo column:
`'emp' in v.lower() and 'name' in v.lower()`. -/
def detEmpName (v : String) : Bool :=
  hasSub (pyLower v) "emp" && hasSub (pyLower v) "name"

/-- Header detector for the Email column: `'email' in v.lower()`. -/
def detEmail (v : String) : Bool := hasSub (pyLower v) "email"

/-- Header detector for the MissingTime column:
`all(x in v.lower() for x in ('sum','missing','time'))`. -/
def detMissing (v : String) : Bool :=
  hasSub (pyLower v) "sum" && hasSub (pyLower v) "missing" && hasSub (pyLower v) "time"

/-- Roster name-column detector: `'name' in h.lower()` (the roster name
column additionally requires `not detEmail`). -/
def detName (v : String) : Bool := hasSub (pyLower v) "name"

/-- A row qualifies as the monthly header row when every one of the four
detectors is satisfied by some cell. -/
def isHeaderRow (vals : List String) : Bool :=
  vals.any detLevel && vals.any detEmpName && vals.any detEmail && vals.any detMissing

/-- Outcome of a header-row scan. -/
inductive HdrScan where
  /-- Header found at absolute row index `idx`, with the stripped cell
  strings of that row. -/
  | found (idx : Nat) (headers : List String)
  /-- No row qualified. -/
  | notFound
  /-- The scan raised (a truthy non-string cell was stripped). -/
  | exn
deriving DecidableEq, Repr

/-- Step 5 of `upload`: scan rows top-to-bottom for the first row
satisfying all four detectors; `k` is the index of the first row of the
remaining list. -/
def findHeader : List Row → Nat → HdrScan
  | [], _ => .notFound
  | row :: rest, k =>
    match rowVals row with
    | .error _ => .exn
    | .ok vals => if isHeaderRow vals then .found k vals else findHeader rest (k + 1)

/-- Step 7 of `upload`: scan the roster rows for the first row with a
cell containing `'email'`. -/
def findRosterHeader : List Row → Nat → HdrScan
  | [], _ => .notFound
  | row :: rest, k =>
    match rowVals row with
    | .error _ => .exn
    | .ok vals => if vals.any detEmail then .found k vals else findRosterHeader rest (k + 1)

/-- Column indices of the four logical monthly fields. -/
structure MonthCols where
  level : Nat
  empinfo : Nat
  email : Nat
  missing : Nat
deriving DecidableEq, Repr

/-- Step 6 of `upload`: resolve each logical field to the first header
cell satisfying its detector; `none` models the `StopIteration` caught
as `ColumnNotFound`. -/
def resolveCols (headers : List String) : Option MonthCols :=
  match headers.findIdx? detLevel, headers.findIdx? detEmpName,
        headers.findIdx? detEmail, headers.findIdx? detMissing with
  | some a, some b, some c, some d => some ⟨a, b, c, d⟩
  | _, _, _, _ => none

/-- The normalized non-falsy values of column `idx` over the given rows:
`{str(r[idx]).strip().lower() for r in rows if r[idx]}` (as a list;
only membership matters). -/
def colSet (idx : Nat) (rows : List Row) : List String :=
  rows.filterMap fun r =>
    match r.getD idx none with
    | none => none
    | some v => if cvTruthy v then some (pyNorm v) else none

/-- The roster name-column predicate:
`'name' in h.lower() and 'email' not in h.lower()`. -/
def namePred (h : String) : Bool := detName h && !detEmail h

/-- The roster names set: empty when no name column resolved. -/
def rosterNames (hdr2 : List String) (rows : List Row) : List String :=
  match hdr2.findIdx? namePred with
  | none => []
  | some i => colSet i rows

/-- The raw Level cell of a row. -/
def levelCell (cols : MonthCols) (row : Row) : Cell := row.getD cols.level none

/-- Python `lvl_cell is not None and str(lvl_cell).strip()`: the row is
a group-header row. -/
def isLevelRow (cols : MonthCols) (row : Row) : Bool :=
  match levelCell cols row with
  | none => false
  | some v => !(pyStrip (pyStr v)).toList.isEmpty

/-- Python `email_key = str(raw_email).strip().lower() if raw_email else ''`. -/
def emailKeyOf (cols : MonthCols) (row : Row) : String :=
  match row.getD cols.email none with
  | none => ""
  | some v => if cvTruthy v then pyNorm v else ""

/-- Python `empinfo = str(row[idx_empinfo] or '')`. -/
def empInfoStrOf (cols : MonthCols) (row : Row) : String :=
  match row.getD cols.empinfo none with
  | none => ""
  | some v => if cvTruthy v then pyStr v else ""

/-- Split a character list at the first `'-'`, if any. -/
def splitOnce : List Char → Option (List Char × List Char)
  | [] => none
  | c :: rest =>
    if c = '-' then some ([], rest)
    else
      match splitOnce rest with
      | none => none
      | some (a, b) => some (c :: a, b)

/-- Python `parts = empinfo.split('-', 1); parts[1].strip() if
len(parts) > 1 else empinfo.strip()`. -/
def nameFromEmpInfo (s : String) : String :=
  match splitOnce s.toList with
  | some (_, b) => pyStrip (String.mk b)
  | none => pyStrip s

/-- The `name_part` derived from a monthly row. -/
def namePartOf (cols : MonthCols) (row : Row) : String :=
  nameFromEmpInfo (empInfoStrOf cols row)

/-- Python `name_key = name_part.lower()`. -/
def nameKeyOf (cols : MonthCols) (row : Row) : String :=
  pyLower (namePartOf cols row)

/-- Python `email_key in mgr_emails or name_key in mgr_names`. -/
def rowMatches (emails names : List String) (cols : MonthCols) (row : Row) : Bool :=
  emails.contains (emailKeyOf cols row) || names.contains (nameKeyOf cols row)

/-- A Result Entry as appended to `results`. -/
structure Entry where
  level : Cell
  name : String
  email : Cell
  missingTime : Cell
deriving DecidableEq, Repr

/-- The entry emitted for a matching row under carried level `cur`. -/
def mkEntry (cur : Cell) (cols : MonthCols) (row : Row) : Entry :=
  ⟨cur, namePartOf cols row, row.getD cols.email none, row.getD cols.missing none⟩

/-- Step 8 of `upload`: the filter loop over the monthly data rows,
carrying `current_level` (initially `none`). -/
def filterRows (emails names : List String) (cols : MonthCols) :
    List Row → Cell → List Entry
  | [], _ => []
  | row :: rest, cur =>
    if isLevelRow cols row then
      filterRows emails names cols rest (levelCell cols row)
    else if rowMatches emails names cols row then
      mkEntry cur cols row :: filterRows emails names cols rest cur
    else
      filterRows emails names cols rest cur

/-- Errors surfaced by the pipeline (after the two files were read). -/
inductive Err where
  | headerNotFound
  | columnNotFound
  | rosterHeaderNotFound
  /-- An unhandled Python exception escaped the handler. -/
  | exn
deriving DecidableEq, Repr

/-- HTTP status of each error: validation failures return 400, an
unhandled exception surfaces as a 500. -/
def errStatus : Err → Nat
  | .headerNotFound => 400
  | .columnNotFound => 400
  | .rosterHeaderNotFound => 400
  | .exn => 500

/-- Steps 5-8 of `upload`: monthly header detection, column resolution,
roster header detection, roster set construction and the filter loop.
The roster email-column `next(...)` has no `StopIteration` guard in the
source, so its (unreachable) failure is modelled as `Err.exn`. -/
def processUpload (monthly roster : List Row) : Except Err (List Entry) :=
  match findHeader monthly 0 with
  | .exn => .error .exn
  | .notFound => .error .headerNotFound
  | .found idx headers =>
    match resolveCols headers with
    | none => .error .columnNotFound
    | some cols =>
      match findRosterHeader roster 0 with
      | .exn => .error .exn
      | .notFound => .error .rosterHeaderNotFound
      | .found j hdr2 =>
        let mgrData := roster.drop (j + 1)
        match hdr2.findIdx? detEmail with
        | none => .error .exn
        | some ei =>
          let emails := colSet ei mgrData
          let names := rosterNames hdr2 mgrData
          .ok (filterRows emails names cols (monthly.drop (idx + 1)) none)

/-- A cell the header scans can strip without raising: `None`, a string,
or a falsy number (`0`). -/
def cellClean : Cell → Bool
  | none => true
  | some (.str _) => true
  | some (.num n) => n == 0

/-- Specification-side reformulation of the filter loop's traversal:
each non-group-header row paired with the carried level in force at it.
Used to state order preservation and per-row emission. -/
def carried (cols : MonthCols) : List Row → Cell → List (Cell × Row)
  | [], _ => []
  | row :: rest, cur =>
    if isLevelRow cols row then carried cols rest (levelCell cols row)
    else (cur, row) :: carried cols rest cur

theorem coerceTrim_ok_of_clean (c : Cell) (h : cellClean c = true) :
    ∃ s, coerceTrim c = .ok s := by
  cases c with
  | none => exact ⟨"", rfl⟩
  | some v =>
    cases v with
    | str s => exact ⟨pyStrip s, rfl⟩
    | num n =>
      simp only [cellClean] at h
      exact ⟨"", by simp [coerceTrim, h]⟩

theorem coerceTrim_error_of_dirty (c : Cell) (h : cellClean c = false) :
    coerceTrim c = .error () := by
  cases c with
  | none => simp [cellClean] at h
  | some v =>
    cases v with
    | str s => simp [cellClean] at h
    | num n =>
      simp only [cellClean] at h
      simp [coerceTrim, h]

theorem rowVals_ok_of_clean (row : Row) (h : ∀ c ∈ row, cellClean c = true) :
    ∃ vs, rowVals row = .ok vs := by
  induction row with
  | nil => exact ⟨[], rfl⟩
  | cons c rest ih =>
    obtain ⟨s, hs⟩ := coerceTrim_ok_of_clean c (h c (by simp))
    obtain ⟨vs, hvs⟩ := ih fun d hd => h d (by simp [hd])
    exact ⟨s :: vs, by simp [rowVals, hs, hvs]⟩

theorem rowVals_error_of_dirty (row : Row) (h : ∃ c ∈ row, cellClean c = false) :
    rowVals row = .error () := by
  induction row with
  | nil => simp at h
  | cons c rest ih =>
    by_cases hc : cellClean c = true
    · obtain ⟨d, hd, hdf⟩ := h
      rcases List.mem_cons.mp hd with rfl | hd'
      · rw [hc] at hdf; simp at hdf
      · obtain ⟨s, hs⟩ := coerceTrim_ok_of_clean c hc
        have hrest := ih ⟨d, hd', hdf⟩
        simp [rowVals, hs, hrest]
    · have herr := coerceTrim_error_of_dirty c (by simpa using hc)
      simp [rowVals, herr]

theorem findHeader_found_of (rows : List Row) (k i : Nat) (vals : List String)
    (hv : rowVals (rows.getD i []) = .ok vals)
    (hq : isHeaderRow vals = true)
    (hmin : ∀ j < i, ∃ vs, rowVals (rows.getD j []) = .ok vs ∧ isHeaderRow vs = false)
    (hi : i < rows.length) :
    findHeader rows k = .found (k + i) vals := by
  induction rows generalizing k i with
  | nil => simp at hi
  | cons row rest ih =>
    cases i with
    | zero =>
      simp only [List.getD_cons_zero] at hv
      simp [findHeader, hv, hq]
    | succ i' =>
      obtain ⟨vs, hvs, hfalse⟩ := hmin 0 (Nat.succ_pos i')
      simp only [List.getD_cons_zero] at hvs
      simp only [List.getD_cons_succ] at hv
      have step := ih (k + 1) i' hv
        (fun j hj => by simpa using hmin (j + 1) (Nat.succ_lt_succ hj))
        (by simpa using hi)
      simp only [findHeader, hvs]
      rw [if_neg (by simp [hfalse]), step]
      congr 1
      omega

theorem findHeader_none_of (rows : List Row) (k : Nat)
    (h : ∀ j < rows.length,
      ∃ vs, rowVals (rows.getD j []) = .ok vs ∧ isHeaderRow vs = false) :
    findHeader rows k = .notFound := by
  induction rows generalizing k with
  | nil => rfl
  | cons row rest ih =>
    obtain ⟨vs, hvs, hfalse⟩ := h 0 (Nat.succ_pos _)
    simp only [List.getD_cons_zero] at hvs
    simp only [findHeader, hvs, hfalse]
    exact ih (k + 1) fun j hj => by simpa using h (j + 1) (Nat.succ_lt_succ hj)

theorem findHeader_found_isHeaderRow (rows : List Row) (k i : Nat) (vals : List String)
    (h : findHeader rows k = .found i vals) : isHeaderRow vals = true := by
  induction rows generalizing k with
  | nil => simp [findHeader] at h
  | cons row rest ih =>
    simp only [findHeader] at h
    split at h
    · simp at h
    · rename_i vs hvs
      split at h
      · rename_i hq
        cases h
        exact hq
      · exact ih (k + 1) h

theorem findRosterHeader_found_of (rows : List Row) (k i : Nat) (vals : List String)
    (hv : rowVals (rows.getD i []) = .ok vals)
    (hq : vals.any detEmail = true)
    (hmin : ∀ j < i, ∃ vs, rowVals (rows.getD j []) = .ok vs ∧ vs.any detEmail = false)
    (hi : i < rows.length) :
    findRosterHeader rows k = .found (k + i) vals := by
  induction rows generalizing k i with
  | nil => simp at hi
  | cons row rest ih =>
    cases i with
    | zero =>
      simp only [List.getD_cons_zero] at hv
      simp [findRosterHeader, hv, hq]
    | succ i' =>
      obtain ⟨vs, hvs, hfalse⟩ := hmin 0 (Nat.succ_pos i')
      simp only [List.getD_cons_zero] at hvs
      simp only [List.getD_cons_succ] at hv
      have step := ih (k + 1) i' hv
        (fun j hj => by simpa using hmin (j + 1) (Nat.succ_lt_succ hj))
        (by simpa using hi)
      simp only [findRosterHeader, hvs]
      rw [if_neg (by simp [hfalse]), step]
      congr 1
      omega

theorem findRosterHeader_none_of (rows : List Row) (k : Nat)
    (h : ∀ j < rows.length,
      ∃ vs, rowVals (rows.getD j []) = .ok vs ∧ vs.any detEmail = false) :
    findRosterHeader rows k = .notFound := by
  induction rows generalizing k with
  | nil => rfl
  | cons row rest ih =>
    obtain ⟨vs, hvs, hfalse⟩ := h 0 (Nat.succ_pos _)
    simp only [List.getD_cons_zero] at hvs
    simp only [findRosterHeader, hvs, hfalse]
    exact ih (k + 1) fun j hj => by simpa using h (j + 1) (Nat.succ_lt_succ hj)

theorem filterRows_eq_carried (e n : List String) (cols : MonthCols)
    (data : List Row) (cur : Cell) :
    filterRows e n cols data cur =
      (carried cols data cur).filterMap fun p =>
        if rowMatches e n cols p.2 then some (mkEntry p.1 cols p.2) else none := by
  induction data generalizing cur with
  | nil => rfl
  | cons row rest ih =>
    by_cases hl : isLevelRow cols row = true
    · simp [filterRows, carried, hl, ih]
    · simp only [Bool.not_eq_true] at hl
      by_cases hm : rowMatches e n cols row = true
      · simp [filterRows, carried, hl, hm, ih]
      · simp only [Bool.not_eq_true] at hm
        simp [filterRows, carried, hl, hm, ih]

theorem resolveCols_isSome_of_header (vals : List String) (hq : isHeaderRow vals = true) :
    ∃ cols, resolveCols vals = some cols := by
  simp only [isHeaderRow, Bool.and_eq_true] at hq
  obtain ⟨⟨⟨h1, h2⟩, h3⟩, h4⟩ := hq
  have e1 : (vals.findIdx? detLevel).isSome = true := by
    rw [List.findIdx?_isSome]; exact h1
  have e2 : (vals.findIdx? detEmpName).isSome = true := by
    rw [List.findIdx?_isSome]; exact h2
  have e3 : (vals.findIdx? detEmail).isSome = true := by
    rw [List.findIdx?_isSome]; exact h3
  have e4 : (vals.findIdx? detMissing).isSome = true := by
    rw [List.findIdx?_isSome]; exact h4
  obtain ⟨a, ha⟩ := Option.isSome_iff_exists.mp e1
  obtain ⟨b, hb⟩ := Option.isSome_iff_exists.mp e2
  obtain ⟨c, hc⟩ := Option.isSome_iff_exists.mp e3
  obtain ⟨d, hd⟩ := Option.isSome_iff_exists.mp e4
  exact ⟨⟨a, b, c, d⟩, by simp [resolveCols, ha, hb, hc, hd]⟩

theorem filterRows_append_no_level (e n : List String) (cols : MonthCols)
    (pre rest : List Row) (cur : Cell)
    (h : ∀ r ∈ pre, isLevelRow cols r = false) :
    filterRows e n cols (pre ++ rest) cur =
      (pre.filterMap fun r =>
        if rowMatches e n cols r then some (mkEntry cur cols r) else none)
        ++ filterRows e n cols rest cur := by
  induction pre with
  | nil => simp
  | cons r pre' ih =>
    have hr : isLevelRow cols r = false := h r (by simp)
    have ih' := ih fun x hx => h x (by simp [hx])
    by_cases hm : rowMatches e n cols r = true
    · simp [filterRows, hr, hm, ih']
    · simp only [Bool.not_eq_true] at hm
      simp [filterRows, hr, hm, ih']

theorem carried_snd_sublist (cols : MonthCols) (data : List Row) (cur : Cell) :
    ((carried cols data cur).map Prod.snd).Sublist data := by
  induction data generalizing cur with
  | nil => simp [carried]
  | cons row rest ih =>
    by_cases hl : isLevelRow cols row = true
    · simp only [carried, hl, if_true]
      exact (ih _).cons _
    · simp only [Bool.not_eq_true] at hl
      simp only [carried, hl, Bool.false_eq_true, if_false, List.map_cons]
      exact (ih _).cons₂ _

theorem toList_mk (l : List Char) : (String.mk l).toList = l := rfl

theorem splitOnce_append (a b : List Char) (h : '-' ∉ a) :
    splitOnce (a ++ '-' :: b) = some (a, b) := by
  induction a with
  | nil => simp [splitOnce]
  | cons c cs ih =>
    have hc : ¬(c = '-') := fun hc => h (hc ▸ List.mem_cons_self c cs)
    have hcs : '-' ∉ cs := fun hm => h (List.mem_cons_of_mem c hm)
    simp [splitOnce, hc, ih hcs]

theorem splitOnce_none (l : List Char) (h : '-' ∉ l) : splitOnce l = none := by
  induction l with
  | nil => rfl
  | cons c cs ih =>
    have hc : ¬(c = '-') := fun hc => h (hc ▸ List.mem_cons_self c cs)
    have hcs : '-' ∉ cs := fun hm => h (List.mem_cons_of_mem c hm)
    simp [splitOnce, hc, ih hcs]

theorem findHeader_exn_of (rows : List Row) (k i : Nat)
    (hdirty : ∃ c ∈ rows.getD i [], cellClean c = false)
    (hmin : ∀ j < i, ∃ vs, rowVals (rows.getD j []) = .ok vs ∧ isHeaderRow vs = false)
    (hi : i < rows.length) :
    findHeader rows k = .exn := by
  induction rows generalizing k i with
  | nil => simp at hi
  | cons row rest ih =>
    cases i with
    | zero =>
      simp only [List.getD_cons_zero] at hdirty
      have herr := rowVals_error_of_dirty row hdirty
      simp [findHeader, herr]
    | succ i' =>
      obtain ⟨vs, hvs, hfalse⟩ := hmin 0 (Nat.succ_pos i')
      simp only [List.getD_cons_zero] at hvs
      simp only [List.getD_cons_succ] at hdirty
      have step := ih (k + 1) i' hdirty
        (fun j hj => by simpa using hmin (j + 1) (Nat.succ_lt_succ hj))
        (by simpa using hi)
      simp only [findHeader, hvs]
      rw [if_neg (by simp [hfalse])]
      exact step

theorem findRosterHeader_exn_of (rows : List Row) (k i : Nat)
    (hdirty : ∃ c ∈ rows.getD i [], cellClean c = false)
    (hmin : ∀ j < i, ∃ vs, rowVals (rows.getD j []) = .ok vs ∧ vs.any detEmail = false)
    (hi : i < rows.length) :
    findRosterHeader rows k = .exn := by
  induction rows generalizing k i with
  | nil => simp at hi
  | cons row rest ih =>
    cases i with
    | zero =>
      simp only [List.getD_cons_zero] at hdirty
      have herr := rowVals_error_of_dirty row hdirty
      simp [findRosterHeader, herr]
    | succ i' =>
      obtain ⟨vs, hvs, hfalse⟩ := hmin 0 (Nat.succ_pos i')
      simp only [List.getD_cons_zero] at hvs
      simp only [List.getD_cons_succ] at hdirty
      have step := ih (k + 1) i' hdirty
        (fun j hj => by simpa using hmin (j + 1) (Nat.succ_lt_succ hj))
        (by simpa using hi)
      simp only [findRosterHeader, hvs]
      rw [if_neg (by simp [hfalse])]
      exact step

theorem findHeader_ne_exn_of_clean (rows : List Row) (k : Nat)
    (h : ∀ r ∈ rows, ∀ c ∈ r, cellClean c = true) :
    findHeader rows k ≠ .exn := by
  induction rows generalizing k with
  | nil => simp [findHeader]
  | cons row rest ih =>
    obtain ⟨vs, hvs⟩ := rowVals_ok_of_clean row (h row (by simp))
    simp only [findHeader, hvs]
    by_cases hq : isHeaderRow vs = true
    · rw [if_pos hq]
      simp
    · rw [if_neg hq]
      exact ih (k + 1) fun r hr => h r (by simp [hr])

theorem findRosterHeader_ne_exn_of_clean (rows : List Row) (k : Nat)
    (h : ∀ r ∈ rows, ∀ c ∈ r, cellClean c = true) :
    findRosterHeader rows k ≠ .exn := by
  induction rows generalizing k with
  | nil => simp [findRosterHeader]
  | cons row rest ih =>
    obtain ⟨vs, hvs⟩ := rowVals_ok_of_clean row (h row (by simp))
    simp only [findRosterHeader, hvs]
    by_cases hq : vs.any detEmail = true
    · rw [if_pos hq]
      simp
    · rw [if_neg hq]
      exact ih (k + 1) fun r hr => h r (by simp [hr])

/-- C2: the monthly header locator scans rows top-to-bottom and returns
the first row index at which all four field detectors are satisfied by
some cell; if two rows qualify the earlier one is chosen (captured by the
minimality hypothesis); if no row qualifies the scan reports no header,
the pipeline fails with HeaderNotFound, and its HTTP status is 400. -/
theorem c2_monthly_header_locator :
    (∀ (rows : List Row) (i : Nat) (vals : List String),
        i < rows.length →
        rowVals (rows.getD i []) = .ok vals →
        isHeaderRow vals = true →
        (∀ j < i, ∃ vs, rowVals (rows.getD j []) = .ok vs ∧ isHeaderRow vs = false) →
        findHeader rows 0 = .found i vals)
    ∧ (∀ rows : List Row,
        (∀ j < rows.length,
          ∃ vs, rowVals (rows.getD j []) = .ok vs ∧ isHeaderRow vs = false) →
        findHeader rows 0 = .notFound)
    ∧ errStatus .headerNotFound = 400
    ∧ (∀ monthly roster : List Row,
        findHeader monthly 0 = .notFound →
        processUpload monthly roster = .error .headerNotFound) := by
  refine ⟨fun rows i vals hi hv hq hmin => ?_,
          fun rows h => findHeader_none_of rows 0 h, rfl,
          fun m r h => ?_⟩
  · simpa using findHeader_found_of rows 0 i vals hv hq hmin hi
  · simp [processUpload, h]

/-- C2 witness: a sheet whose second row is the first qualifying header
row is found at index 1; a sheet with no qualifying row reports no
header, and the pipeline then fails with HeaderNotFound. -/
theorem c2_monthly_header_locator_witness :
    findHeader
        [ [some (.str "x")],
          [some (.str "Level"), some (.str "Emp Name"), some (.str "Email"),
           some (.str "Sum of Missing Time")] ] 0
      = .found 1 ["Level", "Emp Name", "Email", "Sum of Missing Time"]
    ∧ findHeader [[some (.str "x")]] 0 = .notFound
    ∧ processUpload [[some (.str "x")]] [] = .error .headerNotFound := by
  refine ⟨c2_monthly_header_locator.1 _ 1 _ (by decide) rfl (by decide) ?_,
          c2_monthly_header_locator.2.1 _ ?_,
          c2_monthly_header_locator.2.2.2 _ _ rfl⟩
  · intro j hj
    obtain rfl : j = 0 := by omega
    exact ⟨["x"], rfl, by decide⟩
  · intro j hj
    simp only [List.length_cons, List.length_nil] at hj
    obtain rfl : j = 0 := by omega
    exact ⟨["x"], rfl, by decide⟩

/-- C6: a header row that satisfied all four detectors always re-resolves
to column indices for every logical field, so the ColumnNotFound branch
of the pipeline is unreachable. -/
theorem c6_column_resolution_total :
    (∀ vals : List String, isHeaderRow vals = true →
        ∃ cols, resolveCols vals = some cols)
    ∧ (∀ monthly roster : List Row,
        processUpload monthly roster ≠ .error .columnNotFound) := by
  refine ⟨resolveCols_isSome_of_header, fun m r hcontra => ?_⟩
  cases hf : findHeader m 0 with
  | exn => simp [processUpload, hf] at hcontra
  | notFound => simp [processUpload, hf] at hcontra
  | found idx headers =>
    obtain ⟨cols, hcols⟩ := resolveCols_isSome_of_header headers
      (findHeader_found_isHeaderRow m 0 idx headers hf)
    cases hr : findRosterHeader r 0 with
    | exn => simp [processUpload, hf, hcols, hr] at hcontra
    | notFound => simp [processUpload, hf, hcols, hr] at hcontra
    | found j hdr2 =>
      cases he : hdr2.findIdx? detEmail with
      | none => simp [processUpload, hf, hcols, hr, he] at hcontra
      | some ei => simp [processUpload, hf, hcols, hr, he] at hcontra

/-- C6 witness: the detectors of a concrete qualifying header row
re-resolve to columns, and a concrete request does not fail with
ColumnNotFound. -/
theorem c6_column_resolution_total_witness :
    (resolveCols ["Level", "Emp Name", "Email", "Sum of Missing Time"]).isSome = true
    ∧ processUpload [[some (.str "x")]] [] ≠ .error .columnNotFound := by
  constructor
  · obtain ⟨cols, hcols⟩ := c6_column_resolution_total.1
      ["Level", "Emp Name", "Email", "Sum of Missing Time"] (by decide)
    simp [hcols]
  · exact c6_column_resolution_total.2 _ _

/-- C7: the roster header is the first row some cell of which contains
'email'; if no row has such a cell the scan reports no header, the
pipeline fails with RosterHeaderNotFound (no entry list is produced),
and its HTTP status is 400. -/
theorem c7_roster_header_detection :
    (∀ (rows : List Row) (i : Nat) (vals : List String),
        i < rows.length →
        rowVals (rows.getD i []) = .ok vals →
        vals.any detEmail = true →
        (∀ j < i, ∃ vs, rowVals (rows.getD j []) = .ok vs ∧ vs.any detEmail = false) →
        findRosterHeader rows 0 = .found i vals)
    ∧ (∀ rows : List Row,
        (∀ j < rows.length,
          ∃ vs, rowVals (rows.getD j []) = .ok vs ∧ vs.any detEmail = false) →
        findRosterHeader rows 0 = .notFound)
    ∧ errStatus .rosterHeaderNotFound = 400
    ∧ (∀ (monthly roster : List Row) (idx : Nat) (headers : List String),
        findHeader monthly 0 = .found idx headers →
        findRosterHeader roster 0 = .notFound →
        processUpload monthly roster = .error .rosterHeaderNotFound) := by
  refine ⟨fun rows i vals hi hv hq hmin => ?_,
          fun rows h => findRosterHeader_none_of rows 0 h, rfl,
          fun m r idx headers hf hr => ?_⟩
  · simpa using findRosterHeader_found_of rows 0 i vals hv hq hmin hi
  · obtain ⟨cols, hcols⟩ := resolveCols_isSome_of_header headers
      (findHeader_found_isHeaderRow m 0 idx headers hf)
    simp [processUpload, hf, hcols, hr]

/-- C7 witness: a roster whose second row is the first with an 'email'
cell is found at index 1; a roster with none reports no header, and the
pipeline fails with RosterHeaderNotFound on a concrete request. -/
theorem c7_roster_header_detection_witness :
    findRosterHeader [ [some (.str "x")], [some (.str "Email")] ] 0
      = .found 1 ["Email"]
    ∧ findRosterHeader [[some (.str "x")]] 0 = .notFound
    ∧ processUpload
        [ [some (.str "Level"), some (.str "Emp Name"), some (.str "Email"),
           some (.str "Sum of Missing Time")] ]
        [[some (.str "x")]]
      = .error .rosterHeaderNotFound := by
  refine ⟨c7_roster_header_detection.1 _ 1 _ (by decide) rfl (by decide) ?_,
          c7_roster_header_detection.2.1 _ ?_,
          c7_roster_header_detection.2.2.2 _ _ 0
            ["Level", "Emp Name", "Email", "Sum of Missing Time"] rfl rfl⟩
  · intro j hj
    obtain rfl : j = 0 := by omega
    exact ⟨["x"], rfl, by decide⟩
  · intro j hj
    simp only [List.length_cons, List.length_nil] at hj
    obtain rfl : j = 0 := by omega
    exact ⟨["x"], rfl, by decide⟩

theorem findIdx?_some_iff_getD (p : String → Bool) (l : List String) (i : Nat) :
    l.findIdx? p = some i ↔
      i < l.length ∧ p (l.getD i "") = true ∧ ∀ j < i, p (l.getD j "") = false := by
  rw [List.findIdx?_eq_some_iff_getElem]
  constructor
  · rintro ⟨h, hp, hmin⟩
    refine ⟨h, ?_, fun j hj => ?_⟩
    · rw [List.getD_eq_getElem l "" h]
      exact hp
    · rw [List.getD_eq_getElem l "" (Nat.lt_trans hj h)]
      simpa using hmin j hj
  · rintro ⟨h, hp, hmin⟩
    refine ⟨h, ?_, fun j hj => ?_⟩
    · rw [List.getD_eq_getElem l "" h] at hp
      exact hp
    · have hmj := hmin j hj
      rw [List.getD_eq_getElem l "" (Nat.lt_trans hj h)] at hmj
      simp [hmj]

/-- C4: name derivation splits the EmployeeInfo string at the first '-';
with a hyphen the name is the stripped second part, without one the whole
stripped string; "12345 - Jane Doe" gives "Jane Doe" and "JaneDoe" gives
"JaneDoe"; the match key is the lowercased name while the emitted Name
keeps the original case. -/
theorem c4_name_derivation :
    (∀ a b : List Char, '-' ∉ a →
        nameFromEmpInfo (String.mk (a ++ '-' :: b)) = pyStrip (String.mk b))
    ∧ (∀ s : String, '-' ∉ s.toList → nameFromEmpInfo s = pyStrip s)
    ∧ nameFromEmpInfo "12345 - Jane Doe" = "Jane Doe"
    ∧ nameFromEmpInfo "JaneDoe" = "JaneDoe"
    ∧ (∀ (cols : MonthCols) (row : Row) (cur : Cell),
        nameKeyOf cols row = pyLower (namePartOf cols row)
        ∧ (mkEntry cur cols row).name = namePartOf cols row) := by
  refine ⟨fun a b h => ?_, fun s h => ?_, by decide, by decide,
          fun cols row cur => ⟨rfl, rfl⟩⟩
  · simp [nameFromEmpInfo, toList_mk, splitOnce_append a b h]
  · unfold nameFromEmpInfo
    rw [splitOnce_none s.toList h]

/-- C4 witness: the split characterizations applied at the spec's two
examples. -/
theorem c4_name_derivation_witness :
    nameFromEmpInfo (String.mk ("12345 ".toList ++ '-' :: " Jane Doe".toList))
      = pyStrip (String.mk " Jane Doe".toList)
    ∧ nameFromEmpInfo "JaneDoe" = pyStrip "JaneDoe" :=
  ⟨c4_name_derivation.1 "12345 ".toList " Jane Doe".toList (by decide),
   c4_name_derivation.2.1 "JaneDoe" (by decide)⟩

/-- C5: the roster email column is the first header cell containing
'email'; the name column the first containing 'name' but not 'email';
the value sets contain exactly the normalized truthy (non-empty) cell
values of the respective column, and the names set is empty when no name
column resolved. -/
theorem c5_roster_sets :
    (∀ (hdr : List String) (i : Nat),
        hdr.findIdx? detEmail = some i ↔
          i < hdr.length ∧ detEmail (hdr.getD i "") = true ∧
            ∀ j < i, detEmail (hdr.getD j "") = false)
    ∧ (∀ (hdr : List String) (i : Nat),
        hdr.findIdx? namePred = some i ↔
          i < hdr.length ∧ namePred (hdr.getD i "") = true ∧
            ∀ j < i, namePred (hdr.getD j "") = false)
    ∧ (∀ (idx : Nat) (rows : List Row) (e : String),
        e ∈ colSet idx rows ↔
          ∃ r ∈ rows, ∃ v, r.getD idx none = some v ∧ cvTruthy v = true ∧ pyNorm v = e)
    ∧ (∀ (hdr : List String) (rows : List Row),
        hdr.findIdx? namePred = none → rosterNames hdr rows = [])
    ∧ (∀ (hdr : List String) (rows : List Row) (i : Nat),
        hdr.findIdx? namePred = some i → rosterNames hdr rows = colSet i rows) := by
  refine ⟨fun hdr i => findIdx?_some_iff_getD detEmail hdr i,
          fun hdr i => findIdx?_some_iff_getD namePred hdr i,
          fun idx rows e => ?_,
          fun hdr rows h => by simp [rosterNames, h],
          fun hdr rows i h => by simp [rosterNames, h]⟩
  constructor
  · intro hmem
    rw [colSet, List.mem_filterMap] at hmem
    obtain ⟨r, hr, hf⟩ := hmem
    split at hf
    · simp at hf
    · rename_i v hv
      split at hf
      · rename_i ht
        exact ⟨r, hr, v, hv, ht, Option.some.inj hf⟩
      · simp at hf
  · rintro ⟨r, hr, v, hc, ht, rfl⟩
    rw [colSet, List.mem_filterMap]
    refine ⟨r, hr, ?_⟩
    rw [hc]
    simp [ht]

/-- C5 witness: column resolution and emptiness applied at concrete
roster headers. -/
theorem c5_roster_sets_witness :
    ["ID", "Email"].findIdx? detEmail = some 1
    ∧ rosterNames ["Email"] [[some (.str "Bob")]] = []
    ∧ rosterNames ["Name"] [[some (.str "Bob")]] = colSet 0 [[some (.str "Bob")]] := by
  refine ⟨(c5_roster_sets.1 ["ID", "Email"] 1).mpr ⟨by decide, by decide, ?_⟩,
          c5_roster_sets.2.2.2.1 ["Email"] [[some (.str "Bob")]] (by decide),
          c5_roster_sets.2.2.2.2 ["Name"] [[some (.str "Bob")]] 0 (by decide)⟩
  intro j hj
  obtain rfl : j = 0 := by omega
  decide

/-- C9: the emitted list is exactly the order-preserving image of the
non-group-header data rows passing the match filter, each paired with
its carried level: a filterMap over `carried`, whose row component is a
sublist (subsequence) of the data rows — no reordering, deduplication or
grouping. -/
theorem c9_order_preservation :
    ∀ (e n : List String) (cols : MonthCols) (data : List Row) (cur : Cell),
      filterRows e n cols data cur =
        (carried cols data cur).filterMap (fun p =>
          if rowMatches e n cols p.2 then some (mkEntry p.1 cols p.2) else none)
      ∧ ((carried cols data cur).map Prod.snd).Sublist data :=
  fun e n cols data cur =>
    ⟨filterRows_eq_carried e n cols data cur, carried_snd_sublist cols data cur⟩

/-- C3: a row with a non-blank Level cell emits nothing and replaces the
carried level with that raw cell; the carried level is used for every
entry emitted until the next such row; before any level row the carried
level is `none` and emitted entries carry a `none` Level. -/
theorem c3_level_carry :
    (∀ (e n : List String) (cols : MonthCols) (row : Row) (rest : List Row) (cur : Cell),
        isLevelRow cols row = true →
        filterRows e n cols (row :: rest) cur
          = filterRows e n cols rest (levelCell cols row))
    ∧ (∀ (e n : List String) (cols : MonthCols) (pre rest : List Row) (cur : Cell),
        (∀ r ∈ pre, isLevelRow cols r = false) →
        filterRows e n cols (pre ++ rest) cur =
          (pre.filterMap fun r =>
            if rowMatches e n cols r then some (mkEntry cur cols r) else none)
            ++ filterRows e n cols rest cur)
    ∧ (∀ (e n : List String) (cols : MonthCols) (pre : List Row),
        (∀ r ∈ pre, isLevelRow cols r = false) →
        ∀ ent ∈ filterRows e n cols pre none, ent.level = none) := by
  refine ⟨fun e n cols row rest cur h => by simp [filterRows, h],
          fun e n cols pre rest cur h => filterRows_append_no_level e n cols pre rest cur h,
          fun e n cols pre h ent hent => ?_⟩
  have hdecomp := filterRows_append_no_level e n cols pre [] none h
  have h0 : filterRows e n cols [] none = [] := rfl
  rw [List.append_nil] at hdecomp
  rw [hdecomp, h0, List.append_nil] at hent
  rw [List.mem_filterMap] at hent
  obtain ⟨r, hr, hf⟩ := hent
  by_cases hm : rowMatches e n cols r = true
  · rw [if_pos hm] at hf
    cases hf
    rfl
  · rw [if_neg hm] at hf
    simp at hf

/-- C3 witness: the three parts applied at concrete rows: a level row
updates the carried level and emits nothing; a level-free prefix emits
with the incoming level; an entry emitted before any level row carries a
`none` Level. -/
theorem c3_level_carry_witness :
    filterRows ["a"] [] ⟨0, 1, 2, 3⟩ [[some (.str "L")]] none
      = filterRows ["a"] [] ⟨0, 1, 2, 3⟩ [] (some (.str "L"))
    ∧ filterRows ["a"] [] ⟨0, 1, 2, 3⟩
        ([[none, none, some (.str "a"), none]] ++ []) none =
        ([[none, none, some (.str "a"), none]].filterMap fun r =>
          if rowMatches ["a"] [] ⟨0, 1, 2, 3⟩ r
          then some (mkEntry none ⟨0, 1, 2, 3⟩ r) else none)
          ++ filterRows ["a"] [] ⟨0, 1, 2, 3⟩ [] none
    ∧ (mkEntry none ⟨0, 1, 2, 3⟩ [none, none, some (.str "a"), none]).level = none := by
  refine ⟨c3_level_carry.1 _ _ _ _ _ _ (by decide),
          c3_level_carry.2.1 _ _ _ _ _ _ ?_,
          c3_level_carry.2.2 ["a"] [] ⟨0, 1, 2, 3⟩
            [[none, none, some (.str "a"), none]] ?_
            (mkEntry none ⟨0, 1, 2, 3⟩ [none, none, some (.str "a"), none]) (by decide)⟩
  · intro r hr
    simp only [List.mem_singleton] at hr
    subst hr
    decide
  · intro r hr
    simp only [List.mem_singleton] at hr
    subst hr
    decide

/-- C1 counterexample: a group-header (non-blank Level) data row whose
email is in the roster email set satisfies the match condition but emits
no Result Entry, so "emitted iff matched" fails as stated. -/
theorem c1_counterexample :
    rowMatches (colSet 0 [[some (.str "a@x.com")]])
        (rosterNames ["Email"] [[some (.str "a@x.com")]]) ⟨0, 1, 2, 3⟩
        [some (.str "Team A"), some (.str "1 - Jane"), some (.str "a@x.com"), some (.num 5)]
      = true
    ∧ processUpload
        [ [some (.str "Level"), some (.str "Emp ID - Name"), some (.str "Email ID"),
           some (.str "Sum of Missing Time")],
          [some (.str "Team A"), some (.str "1 - Jane"), some (.str "a@x.com"), some (.num 5)] ]
        [ [some (.str "Email")], [some (.str "a@x.com")] ]
      = .ok [] :=
  ⟨by decide, rfl⟩

/-- C1 (amended): for every data row below the header, a Result Entry is
emitted for that row iff its Level cell is blank AND its normalized
email is in the roster email set or its derived lowercased name is in
the roster name set; either membership alone suffices. -/
theorem c1_per_row_emission :
    ∀ (e n : List String) (cols : MonthCols) (row : Row) (rest : List Row) (cur : Cell),
      filterRows e n cols (row :: rest) cur =
        (if !isLevelRow cols row && rowMatches e n cols row
         then [mkEntry cur cols row] else [])
          ++ filterRows e n cols rest
              (if isLevelRow cols row then levelCell cols row else cur) := by
  intro e n cols row rest cur
  by_cases hl : isLevelRow cols row = true
  · simp [filterRows, hl]
  · simp only [Bool.not_eq_true] at hl
    by_cases hm : rowMatches e n cols row = true
    · simp [filterRows, hl, hm]
    · simp only [Bool.not_eq_true] at hm
      simp [filterRows, hl, hm]

/-- C8 counterexample: a roster email cell of `" "` (truthy, strips to
empty) puts `""` in the email set, so a monthly row whose Email cell is
entirely absent (key `""`) matches and is emitted — refuting "an absent
cell alone never causes that row to match". -/
theorem c8_counterexample :
    (([none, some (.str "Bob"), none, some (.num 7)] : Row).getD 2 none = none)
    ∧ colSet 0 [[some (.str " ")]] = [""]
    ∧ processUpload
        [ [some (.str "Level"), some (.str "Emp ID - Name"), some (.str "Email ID"),
           some (.str "Sum of Missing Time")],
          [none, some (.str "Bob"), none, some (.num 7)] ]
        [ [some (.str "Email")], [some (.str " ")] ]
      = .ok [⟨none, "Bob", none, some (.num 7)⟩] :=
  ⟨rfl, rfl, rfl⟩

/-- C8 (amended): an absent EmployeeInfo or Email cell never fails:
it is treated as the empty string, so the corresponding key is `""`;
provided the roster sets do not contain `""` (they can, when a roster
cell is non-empty but strips to empty), an absent cell alone never
causes the row to match. -/
theorem c8_absent_cells :
    ∀ (e n : List String) (cols : MonthCols) (row : Row),
      (row.getD cols.email none = none → emailKeyOf cols row = "")
      ∧ (row.getD cols.empinfo none = none →
          empInfoStrOf cols row = "" ∧ namePartOf cols row = "" ∧ nameKeyOf cols row = "")
      ∧ (row.getD cols.email none = none → row.getD cols.empinfo none = none →
          e.contains "" = false → n.contains "" = false →
          rowMatches e n cols row = false) := by
  intro e n cols row
  have hek : row.getD cols.email none = none → emailKeyOf cols row = "" := by
    intro h
    unfold emailKeyOf
    rw [h]
  have hinfo : row.getD cols.empinfo none = none →
      empInfoStrOf cols row = "" ∧ namePartOf cols row = "" ∧ nameKeyOf cols row = "" := by
    intro h
    have h1 : empInfoStrOf cols row = "" := by
      unfold empInfoStrOf
      rw [h]
    have h2 : namePartOf cols row = "" := by
      unfold namePartOf
      rw [h1]
      decide
    have h3 : nameKeyOf cols row = "" := by
      unfold nameKeyOf
      rw [h2]
      decide
    exact ⟨h1, h2, h3⟩
  refine ⟨hek, hinfo, fun h1 h2 he hn => ?_⟩
  unfold rowMatches
  rw [hek h1, (hinfo h2).2.2, he, hn]
  rfl

/-- C8 witness: the amended statement applied at a row with both cells
absent and roster sets not containing the empty string. -/
theorem c8_absent_cells_witness :
    emailKeyOf ⟨0, 1, 2, 3⟩ [none, none, none, none] = ""
    ∧ nameKeyOf ⟨0, 1, 2, 3⟩ [none, none, none, none] = ""
    ∧ rowMatches ["x"] ["y"] ⟨0, 1, 2, 3⟩ [none, none, none, none] = false :=
  ⟨(c8_absent_cells ["x"] ["y"] ⟨0, 1, 2, 3⟩ [none, none, none, none]).1 rfl,
   ((c8_absent_cells ["x"] ["y"] ⟨0, 1, 2, 3⟩ [none, none, none, none]).2.1 rfl).2.2,
   (c8_absent_cells ["x"] ["y"] ⟨0, 1, 2, 3⟩ [none, none, none, none]).2.2 rfl rfl
     (by decide) (by decide)⟩

/-- C10 counterexample: a sheet whose header row contains a numeric `0`
cell (a non-string, non-None value) is scanned without raising — the
falsy value is coerced to `''` — refuting "a non-string cell value in
that region makes the scan raise". -/
theorem c10_counterexample :
    some (CellVal.num 0) ∈ ([some (.num 0), some (.str "Level"), some (.str "Emp Name"),
        some (.str "Email"), some (.str "Sum of Missing Time")] : Row)
    ∧ findHeader [[some (.num 0), some (.str "Level"), some (.str "Emp Name"),
        some (.str "Email"), some (.str "Sum of Missing Time")]] 0
      = .found 0 ["", "Level", "Emp Name", "Email", "Sum of Missing Time"]
    ∧ findHeader [[some (.num 0), some (.str "Level"), some (.str "Emp Name"),
        some (.str "Email"), some (.str "Sum of Missing Time")]] 0 ≠ .exn :=
  ⟨by decide, by decide, by decide⟩

/-- C10 (amended): both header scans are total on sheets whose cells are
all strings, None, or falsy numbers (`0`); a truthy non-string cell in a
scanned row — one at or before the first qualifying row — makes the scan
raise an unhandled exception instead of returning a 400 validation
error. -/
theorem c10_scan_totality :
    (∀ rows : List Row, (∀ r ∈ rows, ∀ c ∈ r, cellClean c = true) →
        findHeader rows 0 ≠ .exn ∧ findRosterHeader rows 0 ≠ .exn)
    ∧ (∀ (rows : List Row) (i : Nat),
        i < rows.length →
        (∃ c ∈ rows.getD i [], cellClean c = false) →
        (∀ j < i, ∃ vs, rowVals (rows.getD j []) = .ok vs ∧ isHeaderRow vs = false) →
        findHeader rows 0 = .exn)
    ∧ (∀ (rows : List Row) (i : Nat),
        i < rows.length →
        (∃ c ∈ rows.getD i [], cellClean c = false) →
        (∀ j < i, ∃ vs, rowVals (rows.getD j []) = .ok vs ∧ vs.any detEmail = false) →
        findRosterHeader rows 0 = .exn) :=
  ⟨fun rows h => ⟨findHeader_ne_exn_of_clean rows 0 h, findRosterHeader_ne_exn_of_clean rows 0 h⟩,
   fun rows i hi hd hmin => findHeader_exn_of rows 0 i hd hmin hi,
   fun rows i hi hd hmin => findRosterHeader_exn_of rows 0 i hd hmin hi⟩

/-- C10 witness: a clean sheet scans without raising; a sheet whose
first row holds a truthy numeric cell makes both scans raise. -/
theorem c10_scan_totality_witness :
    (findHeader [[some (.str "a")]] 0 ≠ .exn
      ∧ findRosterHeader [[some (.str "a")]] 0 ≠ .exn)
    ∧ findHeader [[some (.num 3)]] 0 = .exn
    ∧ findRosterHeader [[some (.num 3)]] 0 = .exn :=
  ⟨c10_scan_totality.1 [[some (.str "a")]] (by decide),
   c10_scan_totality.2.1 [[some (.num 3)]] 0 (by decide)
     ⟨some (.num 3), by decide, by decide⟩
     (fun j hj => absurd hj (Nat.not_lt_zero j)),
   c10_scan_totality.2.2 [[some (.num 3)]] 0 (by decide)
     ⟨some (.num 3), by decide, by decide⟩
     (fun j hj => absurd hj (Nat.not_lt_zero j))⟩

end TimeEntry
